import Mathlib

/-!
Shallow embedding of `dso-structured-data-anonymizer` (`src/main.py`).

The program rewrites sensitive fields of JSON / CSV / XML documents according
to a per-field rule set (a parsed JSON configuration).  The embedding below
translates the three adapters `anonymize_json`, `anonymize_csv`,
`anonymize_xml` and the helper `find_parent`, together with a model of the
`main` driver's exit-code behaviour.  External collaborators are modelled as
parameters: the synthetic-value provider (`faker`) as a function
`FakeCat → String`, and the XML path query facility (`ElementTree.findall`)
as a selector function returning element identities.  Python's `re` engine,
to which regex substitution is delegated, is embedded for the pattern subset
used by the configuration examples (literal characters, `\d`, and the
quantifiers `+`, `*`, `{n}`), with the replacement string taken literally.
-/

/-- One anonymization rule: the value of one field-identifier entry of the
JSON configuration, with its three optional keys `action`, `placeholder`,
`regex` (src/main.py:105-107). -/
structure Rule where
  action : Option String
  placeholder : Option String
  regex : Option String
deriving DecidableEq, Repr

/-- The rule set: the parsed configuration dict, mapping a field identifier
to its rule.  Keys are unique; lookup is `key in config` / `config[key]`. -/
abbrev Cfg := List (String × Rule)

/-- `config[key].get("action", "replace")` (src/main.py:105). -/
def actionOf (r : Rule) : String := r.action.getD "replace"

/-- `config[key].get("placeholder", "")` (src/main.py:106). -/
def phOf (r : Rule) : String := r.placeholder.getD ""

/-- Python truthiness of `config[key].get("regex")` (src/main.py:109):
the regex branch is taken only when a regex is present and non-empty
(`None` and `""` are both falsy). -/
def truthyRegex (r : Rule) : Bool :=
  match r.regex with
  | some rx => rx != ""
  | none => false

/-- The regex string once the truthiness test passed (src/main.py:107). -/
def regexStr (r : Rule) : String := r.regex.getD ""

/-- Categories of the synthetic-value provider (the `faker` library), an
external collaborator; the adapters dispatch on the placeholder tags
`fake.name`, `fake.email`, `fake.address`, `fake.phone_number`, `fake.date`
(src/main.py:121-130). -/
inductive FakeCat where
  | name
  | email
  | address
  | phoneNumber
  | date
deriving DecidableEq, Repr

/-- Atom of the embedded regex subset: `\d` or a literal character. -/
inductive RAtom where
  | digit : RAtom
  | lit : Char → RAtom
deriving DecidableEq, Repr

/-- Compiled regex token: an atom to be matched exactly once, or a greedy
star over an atom (`+` and `{n}` are expanded during compilation). -/
inductive RTok where
  | once : RAtom → RTok
  | star : RAtom → RTok
deriving DecidableEq, Repr

def atomMatches : RAtom → Char → Bool
  | .digit, c => c.isDigit
  | .lit a, c => a == c

/-- Parse one atom of the supported pattern subset; characters that carry
regex meaning outside the subset are rejected, so that only patterns whose
Python semantics the model reproduces are compiled. -/
def parseAtom : List Char → Option (RAtom × List Char)
  | '\\' :: 'd' :: rest => some (.digit, rest)
  | '\\' :: _ => none
  | c :: rest =>
    if c == '+' || c == '*' || c == '?' || c == '.' || c == '(' || c == ')' ||
        c == '[' || c == ']' || c == '^' || c == '$' || c == '|' ||
        c == '\x7b' || c == '\x7d' then none
    else some (.lit c, rest)
  | [] => none

def digitsToNat (ds : List Char) : Nat :=
  ds.foldl (fun n c => n * 10 + (c.toNat - 48)) 0

/-- Parse the optional quantifier following an atom: `+`, `*`, `{n}`, or
nothing; returns the token expansion and the remaining input. -/
def parseQuant (a : RAtom) : List Char → Option (List RTok × List Char)
  | '+' :: rest => some ([.once a, .star a], rest)
  | '*' :: rest => some ([.star a], rest)
  | '\x7b' :: rest =>
    let ds := rest.takeWhile Char.isDigit
    match ds, rest.dropWhile Char.isDigit with
    | [], _ => none
    | _ :: _, '\x7d' :: rest2 => some (List.replicate (digitsToNat ds) (.once a), rest2)
    | _ :: _, _ => none
  | rest => some ([.once a], rest)

/-- Compile a pattern of the supported subset to a token list (fuel-driven;
the fuel is the input length, and each step consumes at least one char). -/
def compileFrom : Nat → List Char → Option (List RTok)
  | _, [] => some []
  | 0, _ :: _ => none
  | fuel + 1, cs => do
    let (a, rest) ← parseAtom cs
    let (toks, rest2) ← parseQuant a rest
    let more ← compileFrom fuel rest2
    pure (toks ++ more)

/-- Model of `re.compile` on the supported subset; `none` plays the role of
`re.error` for patterns outside it (src/main.py:116). -/
def compileRegex (s : String) : Option (List RTok) :=
  compileFrom s.length s.toList

/-- Backtracking matcher: match the token list against a prefix of `s`,
returning the remaining suffix of the longest (greedy, leftmost-first)
match, as Python's engine would.  The fuel bounds the recursion depth. -/
def matchToks : Nat → List RTok → List Char → Option (List Char)
  | 0, _, _ => none
  | _ + 1, [], s => some s
  | _ + 1, .once _ :: _, [] => none
  | fuel + 1, .once a :: ts, c :: cs =>
    if atomMatches a c then matchToks fuel ts cs else none
  | fuel + 1, .star _ :: ts, [] => matchToks fuel ts []
  | fuel + 1, .star a :: ts, c :: cs =>
    if atomMatches a c then
      match matchToks fuel (.star a :: ts) cs with
      | some r => some r
      | none => matchToks fuel ts (c :: cs)
    else matchToks fuel ts (c :: cs)

/-- Run the matcher at the start of `s` with sufficient fuel. -/
def runMatch (toks : List RTok) (s : List Char) : Option (List Char) :=
  matchToks (toks.length + s.length + 1) toks s

/-- The `re.sub` scan: walk the subject left to right replacing every
non-overlapping match; an empty match emits the replacement and advances by
one character (Python 3.7+ semantics). -/
def subScan : Nat → List RTok → List Char → List Char → List Char
  | _, toks, repl, [] =>
    match runMatch toks [] with
    | some _ => repl
    | none => []
  | 0, _, _, s => s
  | fuel + 1, toks, repl, c :: cs =>
    match runMatch toks (c :: cs) with
    | none => c :: subScan fuel toks repl cs
    | some s' =>
      if s'.length < cs.length + 1 then
        repl ++ subScan fuel toks repl s'
      else
        repl ++ c :: subScan fuel toks repl cs

/-- Model of `re.sub(pattern, repl, s)` for a compiled pattern, with the
replacement string taken literally (src/main.py:112). -/
def reSub (toks : List RTok) (repl : String) (s : String) : String :=
  (subScan s.toList.length toks repl.toList s.toList).asString

mutual
/-- JSON values (`json.load` result): the Python data the JSON adapter walks.
Objects and arrays are given by mutually defined list types so that the
adapter is structurally recursive; object member order is dict insertion
order. -/
inductive Json where
  | null : Json
  | bool : Bool → Json
  | num : Int → Json
  | str : String → Json
  | arr : JArr → Json
  | obj : JObj → Json
deriving DecidableEq, Repr

inductive JArr where
  | nil : JArr
  | cons : Json → JArr → JArr
deriving DecidableEq, Repr

inductive JObj where
  | nil : JObj
  | cons : String → Json → JObj → JObj
deriving DecidableEq, Repr
end

/-- A JSON value that is neither an object nor an array (the adapter's
base case, src/main.py:97-98). -/
def Json.isScalar : Json → Bool
  | .arr _ => false
  | .obj _ => false
  | _ => true

/-- The placeholder dispatch of the JSON `replace` action
(src/main.py:121-134): synthetic-value tags, the JSON-only `"null"`
sentinel, else the literal placeholder string. -/
def replaceValueJson (fake : FakeCat → String) (ph : String) : Json :=
  if ph = "fake.name" then .str (fake .name)
  else if ph = "fake.email" then .str (fake .email)
  else if ph = "fake.address" then .str (fake .address)
  else if ph = "fake.phone_number" then .str (fake .phoneNumber)
  else if ph = "fake.date" then .str (fake .date)
  else if ph = "null" then .null
  else .str ph

/-- The placeholder dispatch shared by the CSV and XML `replace` branches
(src/main.py:190-201 and 245-256): identical to the JSON one except that
there is no `"null"` sentinel case. -/
def replaceValueText (fake : FakeCat → String) (ph : String) : String :=
  if ph = "fake.name" then fake .name
  else if ph = "fake.email" then fake .email
  else if ph = "fake.address" then fake .address
  else if ph = "fake.phone_number" then fake .phoneNumber
  else if ph = "fake.date" then fake .date
  else ph

mutual
/-- `anonymize_json` (src/main.py:86-145).  Scalars are returned unchanged;
lists are anonymized element-wise; dicts are walked by `goObj`.  The
`Except` result models an uncaught Python exception escaping the call:
deleting a key during `for key, value in data.items()` iteration
(src/main.py:103,137) makes the next iterator step raise
`RuntimeError: dictionary changed size during iteration`, which propagates
out of `anonymize_json` (and in `main` is caught by the catch-all handler,
aborting the run with exit code 1). -/
def anonymizeJson (fake : FakeCat → String) (cfg : Cfg) : Json → Except String Json
  | .obj ms => (goObj fake cfg ms).map Json.obj
  | .arr xs => (goArr fake cfg xs).map Json.arr
  | j => .ok j

/-- The `for key, value in data.items()` loop of `anonymize_json`
(src/main.py:103-144), one member at a time, in insertion order. -/
def goObj (fake : FakeCat → String) (cfg : Cfg) : JObj → Except String JObj
  | .nil => .ok .nil
  | .cons k v rest =>
    match cfg.lookup k with
    | some rule =>
      if truthyRegex rule then
        match v with
        | .str s =>
          match compileRegex (regexStr rule) with
          | some toks =>
            (goObj fake cfg rest).map (JObj.cons k (.str (reSub toks (phOf rule) s)))
          | none =>
            (goObj fake cfg rest).map (JObj.cons k (.str s))
        | _ =>
          (goObj fake cfg rest).map (JObj.cons k v)
      else if actionOf rule = "replace" then
        (goObj fake cfg rest).map (JObj.cons k (replaceValueJson fake (phOf rule)))
      else if actionOf rule = "remove" then
        .error "dictionary changed size during iteration"
      else
        (goObj fake cfg rest).map (JObj.cons k v)
    | none =>
      match v with
      | .obj ms =>
        (goObj fake cfg ms).map Json.obj >>= fun v' =>
          (goObj fake cfg rest).map (JObj.cons k v')
      | .arr xs =>
        (goArr fake cfg xs).map Json.arr >>= fun v' =>
          (goObj fake cfg rest).map (JObj.cons k v')
      | _ =>
        (goObj fake cfg rest).map (JObj.cons k v)

/-- The list comprehension `[anonymize_json(item, config) for item in ...]`
(src/main.py:101,144), left to right, aborting on the first exception. -/
def goArr (fake : FakeCat → String) (cfg : Cfg) : JArr → Except String JArr
  | .nil => .ok .nil
  | .cons x xs =>
    anonymizeJson fake cfg x >>= fun x' =>
      (goArr fake cfg xs).map (JArr.cons x')
end

/-- Equality of adapter results is decidable (used to state and check
concrete runs). -/
instance exceptDecEq {ε α : Type} [DecidableEq ε] [DecidableEq α] :
    DecidableEq (Except ε α) := fun x y =>
  match x, y with
  | .ok a, .ok b =>
    if h : a = b then isTrue (by rw [h]) else isFalse (by simp [h])
  | .error e, .error f =>
    if h : e = f then isTrue (by rw [h]) else isFalse (by simp [h])
  | .ok _, .error _ => isFalse (by simp)
  | .error _, .ok _ => isFalse (by simp)

/-- A CSV document at the record level: the header (`reader.fieldnames`,
fixed column names in order) and the data rows as raw cell lists
(src/main.py:164-165). -/
structure CsvDoc where
  header : List String
  rows : List (List String)
deriving DecidableEq, Repr

/-- The row mapping `csv.DictReader` hands to the loop body: zipping the
header with the row's cells pairs each column name with its cell; a column
of a row shorter than the header is absent from the zip and is filled in
by the reader with its `restval`, which defaults to Python `None` —
modelled as `none`.  Cells beyond the header length are dropped into the
reader's `restkey` entry, which the program never reads. -/
def dictRow (header row : List String) (f : String) : Option String :=
  (header.zip row).lookup f

/-- What `csv.DictWriter` writes for a cell value: `None` becomes the empty
string. -/
def writeVal : Option String → String
  | none => ""
  | some s => s

/-- The per-column body of the `anonymize_csv` row loop
(src/main.py:171-208): given the column name and the cell value the reader
produced (`row.get(field, "")` — the key is always present, so this is the
reader's value, possibly `None`), compute the value stored into
`anonymized_row[field]`. -/
def csvCell (fake : FakeCat → String) (cfg : Cfg) (f : String)
    (value : Option String) : Option String :=
  match cfg.lookup f with
  | some rule =>
    if truthyRegex rule then
      match value with
      | some s =>
        match compileRegex (regexStr rule) with
        | some toks => some (reSub toks (phOf rule) s)
        | none => value
      | none => value
    else if actionOf rule = "replace" then
      some (replaceValueText fake (phOf rule))
    else if actionOf rule = "remove" then
      some ""
    else
      value
  | none => value

/-- One output row of `anonymize_csv` (src/main.py:169-209): for every
column name of the header, in header order, the transformed cell as the
writer serializes it. -/
def transformRow (fake : FakeCat → String) (cfg : Cfg) (header row : List String) :
    List String :=
  header.map fun f => writeVal (csvCell fake cfg f (dictRow header row f))

/-- `anonymize_csv` at the record level (src/main.py:148-209): the header is
written unchanged (`DictWriter(outfile, fieldnames=fieldnames)` +
`writeheader()`), and every input row yields exactly one output row. -/
def anonymizeCsv (fake : FakeCat → String) (cfg : Cfg) (c : CsvDoc) : CsvDoc :=
  { header := c.header
    rows := c.rows.map (transformRow fake cfg c.header) }

mutual
/-- An `xml.etree.ElementTree` element: its identity (Python object
identity, unique per element of a parsed document, which `child is element`
compares), tag, text (`None` or a string), and child list. -/
inductive XmlTree where
  | elem : Nat → String → Option String → XmlForest → XmlTree
deriving Repr

/-- A list of sibling elements, mutually defined with `XmlTree` so that the
tree operations are structurally recursive. -/
inductive XmlForest where
  | nil : XmlForest
  | cons : XmlTree → XmlForest → XmlForest
deriving Repr
end

/-- The identity of an element. -/
def idOf : XmlTree → Nat
  | .elem i _ _ _ => i

mutual
/-- The text of the first element (in document order) with the given
identity, if present in the tree: `some tx` means the element is in the
tree and carries text `tx`. -/
def textAt (eid : Nat) : XmlTree → Option (Option String)
  | .elem i _ tx cs => if i == eid then some tx else textAtF eid cs

def textAtF (eid : Nat) : XmlForest → Option (Option String)
  | .nil => none
  | .cons c cs =>
    match textAt eid c with
    | some tx => some tx
    | none => textAtF eid cs
end

mutual
/-- `element.text = v`: set the text of the element with the given
identity (identities are unique in a parsed document, so updating every
node carrying it is the same as updating the one object). -/
def setText (tgt : Nat) (tx : Option String) : XmlTree → XmlTree
  | .elem i tg t0 cs =>
    .elem i tg (if i == tgt then tx else t0) (setTextF tgt tx cs)

def setTextF (tgt : Nat) (tx : Option String) : XmlForest → XmlForest
  | .nil => .nil
  | .cons c cs => .cons (setText tgt tx c) (setTextF tgt tx cs)
end

/-- Does the forest contain, at top level, an element with this identity?
(the `child is element` test of `find_parent`, src/main.py:282-284). -/
def hasChildIdF (eid : Nat) : XmlForest → Bool
  | .nil => false
  | .cons c cs => idOf c == eid || hasChildIdF eid cs

/-- `parent.remove(element)`: drop the first child with this identity. -/
def removeChildF (eid : Nat) : XmlForest → XmlForest
  | .nil => .nil
  | .cons c cs => if idOf c == eid then cs else .cons c (removeChildF eid cs)

mutual
/-- `find_parent(root, element)` (src/main.py:279-285): is there a node,
anywhere in the tree, among whose children the element occurs?  The root
itself is nobody's child, so for it this is `false`. -/
def hasParent (eid : Nat) : XmlTree → Bool
  | .elem _ _ _ cs => hasChildIdF eid cs || hasParentF eid cs

def hasParentF (eid : Nat) : XmlForest → Bool
  | .nil => false
  | .cons c cs => hasParent eid c || hasParentF eid cs
end

mutual
/-- The removal step of `anonymize_xml` (src/main.py:258-263):
`find_parent` scans the tree in document order for the first node having
the element among its children and detaches it there; if no parent is
found the tree is returned unchanged (the removal is skipped with a
diagnostic).  The boolean reports whether a parent was found. -/
def removeFirst (eid : Nat) : XmlTree → XmlTree × Bool
  | .elem i tg tx cs =>
    if hasChildIdF eid cs then (.elem i tg tx (removeChildF eid cs), true)
    else (.elem i tg tx (removeFirstF eid cs).1, (removeFirstF eid cs).2)

def removeFirstF (eid : Nat) : XmlForest → XmlForest × Bool
  | .nil => (.nil, false)
  | .cons c cs =>
    if (removeFirst eid c).2 then (.cons (removeFirst eid c).1 cs, true)
    else (.cons c (removeFirstF eid cs).1, (removeFirstF eid cs).2)
end

mutual
/-- The texts of every element with the given identity, in document order
(a frame-property observation: which texts the tree holds under an
identity). -/
def nodeTexts (eid : Nat) : XmlTree → List (Option String)
  | .elem i _ tx cs => (if i == eid then [tx] else []) ++ nodeTextsF eid cs

def nodeTextsF (eid : Nat) : XmlForest → List (Option String)
  | .nil => []
  | .cons c cs => nodeTexts eid c ++ nodeTextsF eid cs
end

/-- The body of the inner `for element in elements` loop of `anonymize_xml`
(src/main.py:232-266) applied to one matched element, identified by `eid`.
If the element has been detached by an earlier removal, reading or writing
its text mutates only the detached object, which the serialized tree does
not show, and `find_parent` fails, skipping the removal — both are no-ops
on the tree, as here.  The regex branch runs only when the element's text
is truthy (non-`None` and non-empty, src/main.py:239); a pattern outside
the compiled subset plays the `re.error` role and leaves the tree
untouched (src/main.py:241-242). -/
def xmlApplyRule (fake : FakeCat → String) (rule : Rule) (t : XmlTree)
    (eid : Nat) : XmlTree :=
  if truthyRegex rule then
    match textAt eid t with
    | some (some s) =>
      if s ≠ "" then
        match compileRegex (regexStr rule) with
        | some toks => setText eid (some (reSub toks (phOf rule) s)) t
        | none => t
      else t
    | _ => t
  else if actionOf rule = "replace" then
    setText eid (some (replaceValueText fake (phOf rule))) t
  else if actionOf rule = "remove" then
    (removeFirst eid t).1
  else
    t

/-- The inner loop of `anonymize_xml` over the elements matched for one
configuration entry: `elements = root.findall(element_path)` is computed
once, then each matched element is processed against the current tree. -/
def xmlRunIds (fake : FakeCat → String) (rule : Rule) :
    List Nat → XmlTree → XmlTree
  | [], t => t
  | eid :: ids, t => xmlRunIds fake rule ids (xmlApplyRule fake rule t eid)

/-- The outer loop of `anonymize_xml` (src/main.py:230-266): for every
`(element_path, rule)` configuration entry in order, query the current
tree with the path (`sel` models `root.findall`, the host structure's
query facility, returning the identities of the matched elements) and
process each match. -/
def anonymizeXmlCore (fake : FakeCat → String)
    (sel : XmlTree → String → List Nat) : Cfg → XmlTree → XmlTree
  | [], t => t
  | (p, r) :: rest, t =>
    anonymizeXmlCore fake sel rest (xmlRunIds fake r (sel t p) t)

/-- The document format selected by the required `--format` flag. -/
inductive Fmt where
  | json
  | csv
  | xml
deriving DecidableEq, Repr

/-- The document the run writes to the output file, when one is written. -/
inductive OutDoc where
  | json : Json → OutDoc
  | csv : CsvDoc → OutDoc
  | xml : XmlTree → OutDoc

/-- Model of the `main` driver (src/main.py:288-341) at the level the
exit-code claims need.  Inputs describe the world the run meets:
`cfgArg` is the `--config` argument (`none` = flag absent) together with
the result of loading the file (`load_config` returns `None` on a missing
file or invalid JSON, src/main.py:47-64); `inputExists` is the
`os.path.exists` check; `jsonIn` / `csvIn` / `xmlIn` are the results of
reading and parsing the input in the respective format; `writeOk` says
whether writing the output file succeeds.  The result is the process exit
code together with the document written on a completed run.

Faithful structure: a config load failure or missing input exits 1
before any processing.  For JSON, a parse failure exits 1, a missing
config exits 1, an exception escaping `anonymize_json` (the removal
`RuntimeError`) or a failing write is caught by `main`'s catch-all and
exits 1.  For CSV and XML, a missing config exits 1, but every read,
parse, or write failure is caught *inside* `anonymize_csv` /
`anonymize_xml` (src/main.py:211-214, 271-276), which log it and return
normally — `main` then logs success and exits 0. -/
def mainModel (fake : FakeCat → String) (sel : XmlTree → String → List Nat)
    (fmt : Fmt) (cfgArg : Option (Except Unit Cfg)) (inputExists : Bool)
    (jsonIn : Except Unit Json) (csvIn : Except Unit CsvDoc)
    (xmlIn : Except Unit XmlTree) (writeOk : Bool) : Nat × Option OutDoc :=
  match cfgArg with
  | some (.error _) => (1, none)
  | _ =>
    if inputExists = false then (1, none)
    else
      let cfg? : Option Cfg :=
        match cfgArg with
        | some (.ok c) => some c
        | _ => none
      match fmt with
      | .json =>
        match jsonIn with
        | .error _ => (1, none)
        | .ok d =>
          match cfg? with
          | none => (1, none)
          | some cfg =>
            match anonymizeJson fake cfg d with
            | .error _ => (1, none)
            | .ok out => if writeOk then (0, some (.json out)) else (1, none)
      | .csv =>
        match cfg? with
        | none => (1, none)
        | some cfg =>
          match csvIn with
          | .error _ => (0, none)
          | .ok c =>
            if writeOk then (0, some (.csv (anonymizeCsv fake cfg c)))
            else (0, none)
      | .xml =>
        match cfg? with
        | none => (1, none)
        | some cfg =>
          match xmlIn with
          | .error _ => (0, none)
          | .ok t =>
            if writeOk then (0, some (.xml (anonymizeXmlCore fake sel cfg t)))
            else (0, none)

mutual
/-- If `find_parent` would find no parent for the element anywhere in the
tree, the removal step returns the tree unchanged. -/
def removeFirst_no_parent (eid : Nat) :
    ∀ t : XmlTree, hasParent eid t = false → removeFirst eid t = (t, false)
  | .elem i tg tx cs => fun h => by
    have h' : hasChildIdF eid cs = false ∧ hasParentF eid cs = false := by
      simpa [hasParent, Bool.or_eq_false_iff] using h
    simp [removeFirst, h'.1, removeFirstF_no_parent eid cs h'.2]

def removeFirstF_no_parent (eid : Nat) :
    ∀ f : XmlForest, hasParentF eid f = false → removeFirstF eid f = (f, false)
  | .nil => fun _ => rfl
  | .cons c cs => fun h => by
    have h' : hasParent eid c = false ∧ hasParentF eid cs = false := by
      simpa [hasParentF, Bool.or_eq_false_iff] using h
    simp [removeFirstF, removeFirst_no_parent eid c h'.1,
      removeFirstF_no_parent eid cs h'.2]
end

mutual
/-- Setting the text of one element leaves the texts of every other
identity unchanged. -/
def nodeTexts_setText (tgt : Nat) (tx : Option String) (eid : Nat)
    (h : eid ≠ tgt) :
    ∀ t : XmlTree, nodeTexts eid (setText tgt tx t) = nodeTexts eid t
  | .elem i tg t0 cs => by
    have ih := nodeTextsF_setText tgt tx eid h cs
    by_cases hi : i = tgt
    · have hne : (i == eid) = false := by
        simp [hi]
        exact fun hh => h hh.symm
      simp [setText, nodeTexts, ih, hne]
    · have hne : (i == tgt) = false := by simp [hi]
      simp [setText, nodeTexts, ih, hne]

def nodeTextsF_setText (tgt : Nat) (tx : Option String) (eid : Nat)
    (h : eid ≠ tgt) :
    ∀ f : XmlForest, nodeTextsF eid (setTextF tgt tx f) = nodeTextsF eid f
  | .nil => rfl
  | .cons c cs => by
    simp [setTextF, nodeTextsF, nodeTexts_setText tgt tx eid h c,
      nodeTextsF_setText tgt tx eid h cs]
end

/-- Detaching a child from a forest only ever drops texts. -/
def nodeTexts_removeChildF (tgt eid : Nat) (tx : Option String) :
    ∀ f : XmlForest, tx ∈ nodeTextsF eid (removeChildF tgt f) →
      tx ∈ nodeTextsF eid f
  | .nil => fun h => h
  | .cons c cs => fun h => by
    by_cases hc : (idOf c == tgt) = true
    · simp only [removeChildF, hc, if_true] at h
      simp only [nodeTextsF, List.append_eq, List.mem_append]
      exact Or.inr h
    · simp only [removeChildF, hc, if_false] at h
      simp only [nodeTextsF, List.append_eq, List.mem_append] at h ⊢
      rcases h with h1 | h2
      · exact Or.inl h1
      · exact Or.inr (nodeTexts_removeChildF tgt eid tx cs h2)

mutual
/-- The removal step only ever drops texts: any text an identity carries
after the removal was already carried before. -/
def nodeTexts_removeFirst (tgt eid : Nat) (tx : Option String) :
    ∀ t : XmlTree, tx ∈ nodeTexts eid (removeFirst tgt t).1 →
      tx ∈ nodeTexts eid t
  | .elem i tg t0 cs => fun h => by
    by_cases hc : hasChildIdF tgt cs = true
    · simp only [removeFirst, hc, if_true] at h
      simp only [nodeTexts, List.append_eq, List.mem_append] at h ⊢
      rcases h with h1 | h2
      · exact Or.inl h1
      · exact Or.inr (nodeTexts_removeChildF tgt eid tx cs h2)
    · simp only [removeFirst, hc, if_false] at h
      rcases List.mem_append.mp h with h1 | h2
      · exact List.mem_append.mpr (Or.inl h1)
      · exact List.mem_append.mpr (Or.inr (nodeTexts_removeFirstF tgt eid tx cs h2))

def nodeTexts_removeFirstF (tgt eid : Nat) (tx : Option String) :
    ∀ f : XmlForest, tx ∈ nodeTextsF eid (removeFirstF tgt f).1 →
      tx ∈ nodeTextsF eid f
  | .nil => fun h => h
  | .cons c cs => fun h => by
    by_cases hc : (removeFirst tgt c).2 = true
    · simp only [removeFirstF, hc, if_true] at h
      simp only [nodeTextsF, List.append_eq, List.mem_append] at h ⊢
      rcases h with h1 | h2
      · exact Or.inl (nodeTexts_removeFirst tgt eid tx c h1)
      · exact Or.inr h2
    · simp only [removeFirstF, hc, if_false] at h
      simp only [nodeTextsF, List.append_eq, List.mem_append] at h ⊢
      rcases h with h1 | h2
      · exact Or.inl h1
      · exact Or.inr (nodeTexts_removeFirstF tgt eid tx cs h2)
end

/-- Processing one matched element touches no other identity's texts
beyond dropping them with a removed subtree. -/
theorem xmlApplyRule_frame (fake : FakeCat → String) (rule : Rule)
    (tgt eid : Nat) (h : eid ≠ tgt) (t : XmlTree) (tx : Option String) :
    tx ∈ nodeTexts eid (xmlApplyRule fake rule t tgt) →
      tx ∈ nodeTexts eid t := by
  unfold xmlApplyRule
  split
  · split
    · split
      · split
        · rw [nodeTexts_setText tgt _ eid h]
          exact id
        · exact id
      · exact id
    · exact id
  · split
    · rw [nodeTexts_setText tgt _ eid h]
      exact id
    · split
      · exact nodeTexts_removeFirst tgt eid tx t
      · exact id

/-- The inner element loop never touches the texts of an identity it does
not process. -/
theorem xmlRunIds_frame (fake : FakeCat → String) (rule : Rule) (eid : Nat)
    (tx : Option String) :
    ∀ (ids : List Nat) (t : XmlTree), eid ∉ ids →
      tx ∈ nodeTexts eid (xmlRunIds fake rule ids t) → tx ∈ nodeTexts eid t
  | [], _, _, h => h
  | i :: ids, t, hmem, h => by
    have h1 : eid ∉ ids := fun hh => hmem (List.mem_cons_of_mem _ hh)
    have h2 : eid ≠ i := fun hh => hmem (hh ▸ List.mem_cons_self i ids)
    exact xmlApplyRule_frame fake rule i eid h2 t tx
      (xmlRunIds_frame fake rule eid tx ids _ h1 h)

/-- An element never matched by any configured path keeps every text it
ends up with from the input tree. -/
theorem anonymizeXmlCore_frame (fake : FakeCat → String)
    (sel : XmlTree → String → List Nat) (eid : Nat) (tx : Option String) :
    ∀ (cfg : Cfg) (t : XmlTree),
      (∀ t' p r, (p, r) ∈ cfg → eid ∉ sel t' p) →
      tx ∈ nodeTexts eid (anonymizeXmlCore fake sel cfg t) →
        tx ∈ nodeTexts eid t
  | [], _, _, h => h
  | (p, r) :: rest, t, hsel, h => by
    have h1 := anonymizeXmlCore_frame fake sel eid tx rest _
      (fun t' p' r' hm => hsel t' p' r' (List.mem_cons_of_mem _ hm)) h
    exact xmlRunIds_frame fake r eid tx (sel t p) t
      (hsel t p r (List.mem_cons_self _ _)) h1

/-- Sanity checks of the embedded `re.sub` against Python's documented
behaviour: `re.sub("\\d+", "#", "abc123") = "abc#"`,
`re.sub("x{0}", "#", "") = "#"`, `re.sub("x*", "-", "abxd") = "-a-b--d-"`,
and the spec's SSN scenario. -/
theorem reSub_python_checks :
    compileRegex "\\d+" = some [.once .digit, .star .digit]
    ∧ (compileRegex "\\d+").map (fun t => reSub t "#" "abc123") = some "abc#"
    ∧ (compileRegex "x{0}").map (fun t => reSub t "#" "") = some "#"
    ∧ (compileRegex "x*").map (fun t => reSub t "-" "abxd") = some "-a-b--d-"
    ∧ (compileRegex "\\d{3}-\\d{2}-\\d{4}").map
        (fun t => reSub t "XXX-XX-XXXX" "123-45-6789") =
      some "XXX-XX-XXXX" := by
  refine ⟨by decide, by decide, by decide, by decide, by decide⟩

/-- C1: When a field's rule contains a (truthy) regex that the embedded
engine compiles, resolving a string value performs the regex substitution
of the pattern with the placeholder and yields the substituted value, in
both the JSON walker and the CSV row mapper; the rule's action — whatever
it is, `remove` included — is not applied: the field is kept with the
substituted value and processing continues with the remaining fields. -/
theorem c1_regex_precedence (fake : FakeCat → String) (cfg : Cfg)
    (k : String) (rule : Rule) (rx : String) (toks : List RTok) (s : String)
    (rest : JObj)
    (h1 : cfg.lookup k = some rule) (h2 : rule.regex = some rx)
    (h3 : rx ≠ "") (h4 : compileRegex rx = some toks) :
    goObj fake cfg (.cons k (.str s) rest) =
      (goObj fake cfg rest).map (JObj.cons k (.str (reSub toks (phOf rule) s)))
    ∧ csvCell fake cfg k (some s) = some (reSub toks (phOf rule) s) := by
  have ht : truthyRegex rule = true := by simp [truthyRegex, h2, bne_iff_ne, h3]
  have hr : regexStr rule = rx := by simp [regexStr, h2]
  constructor
  · simp [goObj, h1, ht, hr, h4]
  · simp [csvCell, h1, ht, hr, h4]

/-- Witness for C1: the rule `{action: remove, regex: "\d+", placeholder:
"#"}` applied to the string value `"abc123"` substitutes to `"abc#"` — the
field is not removed. -/
theorem c1_witness :
    ([("n", (⟨some "remove", some "#", some "\\d+"⟩ : Rule))].lookup "n" =
      some (⟨some "remove", some "#", some "\\d+"⟩ : Rule))
    ∧ (⟨some "remove", some "#", some "\\d+"⟩ : Rule).regex = some "\\d+"
    ∧ "\\d+" ≠ ""
    ∧ compileRegex "\\d+" = some [.once .digit, .star .digit]
    ∧ goObj (fun _ => "F") [("n", ⟨some "remove", some "#", some "\\d+"⟩)]
        (.cons "n" (.str "abc123") .nil) =
      .ok (.cons "n" (.str "abc#") .nil) := by
  refine ⟨rfl, rfl, by decide, rfl, ?_⟩
  have h := c1_regex_precedence (fun _ => "F")
    [("n", ⟨some "remove", some "#", some "\\d+"⟩)] "n"
    ⟨some "remove", some "#", some "\\d+"⟩ "\\d+" [.once .digit, .star .digit]
    "abc123" .nil rfl rfl (by decide) rfl
  rw [h.1]
  rfl

/-- C2: Fields with no rule entry are passed through: in the JSON walker a
key absent from the rule set has its value recursed into (so its own
object or array interior is anonymized), and a scalar value is returned
unchanged; in the CSV mapper a column with no rule keeps its cell value;
in the XML walker an element never matched by any configured path carries
no text in the output it did not already carry in the input. -/
theorem c2_unmatched_fields_unchanged (fake : FakeCat → String) (cfg : Cfg)
    (k : String) (v : Json) (rest : JObj) (f : String) (val : Option String)
    (sel : XmlTree → String → List Nat) (eid : Nat) (t : XmlTree)
    (h1 : cfg.lookup k = none) (h2 : cfg.lookup f = none)
    (h3 : ∀ t' p r, (p, r) ∈ cfg → eid ∉ sel t' p) :
    (goObj fake cfg (.cons k v rest) =
      anonymizeJson fake cfg v >>= fun v' =>
        (goObj fake cfg rest).map (JObj.cons k v'))
    ∧ (v.isScalar = true → anonymizeJson fake cfg v = .ok v)
    ∧ csvCell fake cfg f val = val
    ∧ (∀ tx, tx ∈ nodeTexts eid (anonymizeXmlCore fake sel cfg t) →
        tx ∈ nodeTexts eid t) := by
  refine ⟨?_, ?_, ?_, ?_⟩
  · cases v <;> simp [goObj, h1, anonymizeJson, Bind.bind, Except.bind]
  · cases v <;> simp [Json.isScalar, anonymizeJson]
  · simp [csvCell, h2]
  · intro tx
    exact anonymizeXmlCore_frame fake sel eid tx cfg t h3

/-- Witness for C2: a key `meta` without a rule is recursed into (reaching
the nested ruled key `secret`), the scalar `name` is unchanged, an
unruled CSV cell is unchanged, and an unmatched XML element keeps its
text. -/
theorem c2_witness :
    (([("secret", (⟨some "replace", some "X", none⟩ : Rule))] : Cfg).lookup
        "meta" = none)
    ∧ (([("secret", (⟨some "replace", some "X", none⟩ : Rule))] : Cfg).lookup
        "note" = none)
    ∧ (∀ (t' : XmlTree) (p : String) (r : Rule),
        (p, r) ∈ ([("secret", (⟨some "replace", some "X", none⟩ : Rule))] : Cfg) →
        (2 : Nat) ∉ (fun (_ : XmlTree) (q : String) =>
          if q = "secret" then [1] else []) t' p)
    ∧ goObj (fun _ => "F") [("secret", ⟨some "replace", some "X", none⟩)]
        (.cons "meta" (.obj (.cons "secret" (.str "s") .nil)) .nil) =
      .ok (.cons "meta" (.obj (.cons "secret" (.str "X") .nil)) .nil)
    ∧ csvCell (fun _ => "F") [("secret", ⟨some "replace", some "X", none⟩)]
        "note" (some "hello") = some "hello"
    ∧ (∀ tx, tx ∈ nodeTexts 2
        (anonymizeXmlCore (fun _ => "F")
          (fun _ q => if q = "secret" then [1] else [])
          [("secret", ⟨some "replace", some "X", none⟩)]
          (.elem 0 "r" none (.cons (.elem 1 "secret" (some "s") .nil)
            (.cons (.elem 2 "note" (some "keep") .nil) .nil)))) →
        tx ∈ nodeTexts 2
          (.elem 0 "r" none (.cons (.elem 1 "secret" (some "s") .nil)
            (.cons (.elem 2 "note" (some "keep") .nil) .nil)))) := by
  have h := c2_unmatched_fields_unchanged (fun _ => "F")
    [("secret", ⟨some "replace", some "X", none⟩)] "meta"
    (.obj (.cons "secret" (.str "s") .nil)) .nil "note" (some "hello")
    (fun _ q => if q = "secret" then [1] else []) 2
    (.elem 0 "r" none (.cons (.elem 1 "secret" (some "s") .nil)
      (.cons (.elem 2 "note" (some "keep") .nil) .nil)))
    rfl rfl (by intro t' p r hm; simp at hm; simp [hm.1])
  refine ⟨rfl, rfl, by intro t' p r hm; simp at hm; simp [hm.1], ?_, h.2.2.1, h.2.2.2⟩
  rw [h.1]
  rfl

/-- C3 (documents the code bug): a rule resolving to `remove` deletes the
key from the dict being iterated, so the very next step of the
`for key, value in data.items()` loop raises `RuntimeError: dictionary
changed size during iteration`.  Processing of the object's remaining keys
does not continue: on config `{"email": {"action": "remove"}}` and
document `{"email": "a@b.com", "name": "Alice"}` the walk aborts with the
error before reaching `name`, and the `main` driver's catch-all handler
turns the escaped exception into exit code 1 with no output written. -/
theorem c3_remove_aborts_iteration :
    anonymizeJson (fun _ => "F") [("email", ⟨some "remove", none, none⟩)]
      (.obj (.cons "email" (.str "a@b.com")
        (.cons "name" (.str "Alice") .nil))) =
      .error "dictionary changed size during iteration"
    ∧ mainModel (fun _ => "F") (fun _ _ => []) .json
        (some (.ok [("email", ⟨some "remove", none, none⟩)])) true
        (.ok (.obj (.cons "email" (.str "a@b.com")
          (.cons "name" (.str "Alice") .nil))))
        (.ok ⟨[], []⟩) (.ok (.elem 0 "r" none .nil)) true = (1, none) :=
  ⟨rfl, rfl⟩

/-- C4 (documents the code bug): only the JSON path surfaces per-document
failures with exit code 1.  `anonymize_csv` and `anonymize_xml` catch
every read, parse, and write failure internally, log it, and return
normally, after which `main` logs success and exits 0: a malformed XML
document, an unreadable CSV input, or a failing CSV/XML write all end with
exit code 0 and no (complete) output, while the same failures on the JSON
path — and a missing input file or a bad configuration on any path — end
with exit code 1. -/
theorem c4_exit_codes :
    mainModel (fun _ => "F") (fun _ _ => []) .xml (some (.ok []))
      true (.ok .null) (.ok ⟨[], []⟩) (.error ()) true = (0, none)
    ∧ mainModel (fun _ => "F") (fun _ _ => []) .csv (some (.ok []))
        true (.ok .null) (.error ()) (.ok (.elem 0 "r" none .nil)) true =
      (0, none)
    ∧ mainModel (fun _ => "F") (fun _ _ => []) .csv (some (.ok []))
        true (.ok .null) (.ok ⟨["a"], [["1"]]⟩) (.ok (.elem 0 "r" none .nil))
        false = (0, none)
    ∧ mainModel (fun _ => "F") (fun _ _ => []) .xml (some (.ok []))
        true (.ok .null) (.ok ⟨[], []⟩) (.ok (.elem 0 "r" none .nil)) false =
      (0, none)
    ∧ mainModel (fun _ => "F") (fun _ _ => []) .json (some (.ok []))
        true (.error ()) (.ok ⟨[], []⟩) (.ok (.elem 0 "r" none .nil)) true =
      (1, none)
    ∧ mainModel (fun _ => "F") (fun _ _ => []) .json (some (.ok []))
        true (.ok (.str "x")) (.ok ⟨[], []⟩) (.ok (.elem 0 "r" none .nil))
        false = (1, none)
    ∧ mainModel (fun _ => "F") (fun _ _ => []) .xml (some (.ok []))
        false (.ok .null) (.ok ⟨[], []⟩) (.ok (.elem 0 "r" none .nil)) true =
      (1, none)
    ∧ mainModel (fun _ => "F") (fun _ _ => []) .xml (some (.error ()))
        true (.ok .null) (.ok ⟨[], []⟩) (.ok (.elem 0 "r" none .nil)) true =
      (1, none) :=
  ⟨rfl, rfl, rfl, rfl, rfl, rfl, rfl, rfl⟩

/-- C5: The CSV output carries exactly the input's column set — the header
is written unchanged — and exactly one output row per input row; each
output cell is the transformed cell of the same column; and a field whose
rule resolves to `remove` becomes the empty string in its cell, never a
dropped column or row. -/
theorem c5_csv_shape (fake : FakeCat → String) (cfg : Cfg) (c : CsvDoc)
    (row : List String) (i : Nat) (f : String) (rule : Rule)
    (val : Option String)
    (h1 : cfg.lookup f = some rule) (h2 : truthyRegex rule = false)
    (h3 : actionOf rule = "remove") :
    (anonymizeCsv fake cfg c).header = c.header
    ∧ (anonymizeCsv fake cfg c).rows.length = c.rows.length
    ∧ (transformRow fake cfg c.header row).length = c.header.length
    ∧ (transformRow fake cfg c.header row)[i]? = (c.header[i]?).map
        (fun g => writeVal (csvCell fake cfg g (dictRow c.header row g)))
    ∧ csvCell fake cfg f val = some ""
    ∧ writeVal (csvCell fake cfg f val) = "" := by
  refine ⟨rfl, ?_, ?_, ?_, ?_, ?_⟩
  · simp [anonymizeCsv]
  · simp [transformRow]
  · simp [transformRow]
  · simp [csvCell, h1, h2, h3]
  · simp [csvCell, h1, h2, h3, writeVal]

/-- Witness for C5: the spec's own scenario — config
`{"email": {"action": "remove"}}`, header `id,email`, row `1,a@b.com` —
keeps the header and the row and empties only the `email` cell. -/
theorem c5_witness :
    (([("email", (⟨some "remove", none, none⟩ : Rule))] : Cfg).lookup
        "email" = some (⟨some "remove", none, none⟩ : Rule))
    ∧ truthyRegex ⟨some "remove", none, none⟩ = false
    ∧ actionOf ⟨some "remove", none, none⟩ = "remove"
    ∧ (anonymizeCsv (fun _ => "F") [("email", ⟨some "remove", none, none⟩)]
        ⟨["id", "email"], [["1", "a@b.com"]]⟩).header = ["id", "email"]
    ∧ (anonymizeCsv (fun _ => "F") [("email", ⟨some "remove", none, none⟩)]
        ⟨["id", "email"], [["1", "a@b.com"]]⟩).rows.length = 1
    ∧ writeVal (csvCell (fun _ => "F")
        [("email", ⟨some "remove", none, none⟩)] "email" (some "a@b.com")) =
      "" := by
  have h := c5_csv_shape (fun _ => "F")
    [("email", ⟨some "remove", none, none⟩)]
    ⟨["id", "email"], [["1", "a@b.com"]]⟩ ["1", "a@b.com"] 0 "email"
    ⟨some "remove", none, none⟩ (some "a@b.com") rfl rfl rfl
  refine ⟨rfl, rfl, rfl, h.1, ?_, h.2.2.2.2.2⟩
  rw [h.2.1]
  rfl

/-- C6: A rule carrying an action outside `{replace, remove}` and no
(truthy) regex leaves the original value intact and raises nothing in any
of the three adapters: the JSON walker keeps the member and continues, the
CSV mapper keeps the cell, and the XML walker returns the tree
unchanged. -/
theorem c6_unknown_action_keeps (fake : FakeCat → String) (cfg : Cfg)
    (k : String) (rule : Rule) (v : Json) (rest : JObj) (val : Option String)
    (t : XmlTree) (eid : Nat)
    (h1 : cfg.lookup k = some rule) (h2 : truthyRegex rule = false)
    (h3 : actionOf rule ≠ "replace") (h4 : actionOf rule ≠ "remove") :
    goObj fake cfg (.cons k v rest) = (goObj fake cfg rest).map (JObj.cons k v)
    ∧ csvCell fake cfg k val = val
    ∧ xmlApplyRule fake rule t eid = t := by
  refine ⟨?_, ?_, ?_⟩
  · cases v <;> simp [goObj, h1, h2, h3, h4]
  · simp [csvCell, h1, h2, h3, h4]
  · simp [xmlApplyRule, h2, h3, h4]

/-- Witness for C6: the unknown action `mask` keeps a JSON member, a CSV
cell and an XML element text unchanged. -/
theorem c6_witness :
    (([("x", (⟨some "mask", some "p", none⟩ : Rule))] : Cfg).lookup "x" =
      some (⟨some "mask", some "p", none⟩ : Rule))
    ∧ truthyRegex ⟨some "mask", some "p", none⟩ = false
    ∧ actionOf ⟨some "mask", some "p", none⟩ ≠ "replace"
    ∧ actionOf ⟨some "mask", some "p", none⟩ ≠ "remove"
    ∧ goObj (fun _ => "F") [("x", ⟨some "mask", some "p", none⟩)]
        (.cons "x" (.str "v") .nil) = .ok (.cons "x" (.str "v") .nil)
    ∧ csvCell (fun _ => "F") [("x", ⟨some "mask", some "p", none⟩)] "x"
        (some "v") = some "v"
    ∧ xmlApplyRule (fun _ => "F") ⟨some "mask", some "p", none⟩
        (.elem 0 "r" (some "v") .nil) 0 = .elem 0 "r" (some "v") .nil := by
  have h := c6_unknown_action_keeps (fun _ => "F")
    [("x", ⟨some "mask", some "p", none⟩)] "x" ⟨some "mask", some "p", none⟩
    (.str "v") .nil (some "v") (.elem 0 "r" (some "v") .nil) 0
    rfl rfl (by decide) (by decide)
  refine ⟨rfl, rfl, by decide, by decide, ?_, h.2.1, h.2.2⟩
  rw [h.1]
  rfl

/-- C7: With action `replace`, no regex and placeholder exactly `"null"`,
the JSON walker stores the JSON null sentinel (Python `None`), not the
four-character string; the CSV mapper and the XML walker have no such
branch and store the literal string `"null"`. -/
theorem c7_null_sentinel (fake : FakeCat → String) (k : String) (v : Json)
    (rest : JObj) (val : Option String) (t : XmlTree) (eid : Nat) :
    replaceValueJson fake "null" = Json.null
    ∧ goObj fake [(k, ⟨some "replace", some "null", none⟩)]
        (.cons k v rest) =
      (goObj fake [(k, ⟨some "replace", some "null", none⟩)] rest).map
        (JObj.cons k Json.null)
    ∧ replaceValueText fake "null" = "null"
    ∧ csvCell fake [(k, ⟨some "replace", some "null", none⟩)] k val =
      some "null"
    ∧ xmlApplyRule fake ⟨some "replace", some "null", none⟩ t eid =
      setText eid (some "null") t := by
  refine ⟨rfl, ?_, rfl, ?_, rfl⟩
  · cases v <;>
      simp [goObj, List.lookup, truthyRegex, actionOf, phOf, replaceValueJson]
  · simp [csvCell, List.lookup, truthyRegex, actionOf, phOf, replaceValueText]

/-- C8: When a matched XML element's rule resolves to `remove` but
`find_parent` locates no parent in the tree (the document root, for
instance, is nobody's child), the removal leaves the tree unchanged — the
walk goes on with the remaining configuration entries and nothing is
raised. -/
theorem c8_removal_without_parent_skipped (fake : FakeCat → String)
    (sel : XmlTree → String → List Nat) (rule : Rule) (p : String)
    (rest : Cfg) (t : XmlTree) (eid : Nat)
    (h1 : truthyRegex rule = false) (h2 : actionOf rule = "remove")
    (h3 : hasParent eid t = false) (h4 : sel t p = [eid]) :
    (removeFirst eid t).1 = t
    ∧ xmlApplyRule fake rule t eid = t
    ∧ anonymizeXmlCore fake sel ((p, rule) :: rest) t =
        anonymizeXmlCore fake sel rest t := by
  have hr : removeFirst eid t = (t, false) := removeFirst_no_parent eid t h3
  have ha : xmlApplyRule fake rule t eid = t := by
    simp [xmlApplyRule, h1, h2, hr]
  refine ⟨by rw [hr], ha, ?_⟩
  simp [anonymizeXmlCore, h4, xmlRunIds, ha]

/-- Witness for C8: removing the document root (a matched element with no
parent anywhere in the tree) is a no-op, and a later entry still
applies. -/
theorem c8_witness :
    truthyRegex ⟨some "remove", none, none⟩ = false
    ∧ actionOf ⟨some "remove", none, none⟩ = "remove"
    ∧ hasParent 0 (.elem 0 "r" (some "t")
        (.cons (.elem 1 "name" (some "Alice") .nil) .nil)) = false
    ∧ (fun (_ : XmlTree) (q : String) => if q = "r" then [0] else [1]) (.elem 0 "r" (some "t")
        (.cons (.elem 1 "name" (some "Alice") .nil) .nil)) "r" = [0]
    ∧ anonymizeXmlCore (fun _ => "F")
        (fun _ q => if q = "r" then [0] else [1])
        [("r", ⟨some "remove", none, none⟩),
         ("name", ⟨some "replace", some "X", none⟩)]
        (.elem 0 "r" (some "t")
          (.cons (.elem 1 "name" (some "Alice") .nil) .nil)) =
      .elem 0 "r" (some "t") (.cons (.elem 1 "name" (some "X") .nil) .nil) := by
  have h := c8_removal_without_parent_skipped (fun _ => "F")
    (fun _ q => if q = "r" then [0] else [1]) ⟨some "remove", none, none⟩ "r"
    [("name", ⟨some "replace", some "X", none⟩)]
    (.elem 0 "r" (some "t") (.cons (.elem 1 "name" (some "Alice") .nil) .nil))
    0 rfl rfl rfl (by simp)
  refine ⟨rfl, rfl, rfl, by simp, ?_⟩
  rw [h.2.2]
  rfl

/-- C9 counterexample: with header `a,b`, the one-cell row `1` (column `b`
missing) and the rule `{action: replace, regex: "x{0}", placeholder: "#"}`
on `b`, the missing cell is written as the empty string — but a row whose
`b` cell actually is the empty string has it substituted to `"#"` (the
pattern matches the empty string).  The missing column therefore does not
default to the empty string during transformation: the reader fills it
with Python `None`, which the regex branch warns about and keeps. -/
theorem c9_counterexample :
    transformRow (fun _ => "F") [("b", ⟨some "replace", some "#", some "x{0}"⟩)]
      ["a", "b"] ["1"] = ["1", ""]
    ∧ transformRow (fun _ => "F")
        [("b", ⟨some "replace", some "#", some "x{0}"⟩)]
        ["a", "b"] ["1", ""] = ["1", "#"]
    ∧ transformRow (fun _ => "F")
        [("b", ⟨some "replace", some "#", some "x{0}"⟩)] ["a", "b"] ["1"] ≠
      transformRow (fun _ => "F")
        [("b", ⟨some "replace", some "#", some "x{0}"⟩)] ["a", "b"]
        ["1", ""] := by
  refine ⟨rfl, rfl, by decide⟩

/-- C9 as amended: a row shorter than the header is still processed (the
output row covers the full column set), but the missing column's value is
the reader's `None`, not the empty string: every non-`replace` rule — and
no rule at all — writes the empty string for it (a regex rule warns and
keeps the `None` instead of substituting on an empty string), while a
`replace` rule writes its replacement value as usual. -/
theorem c9_missing_column_amended (fake : FakeCat → String) (cfg : Cfg)
    (header row : List String) (f : String) (rule : Rule)
    (hmiss : dictRow header row f = none) :
    (transformRow fake cfg header row).length = header.length
    ∧ (cfg.lookup f = none →
        writeVal (csvCell fake cfg f (dictRow header row f)) = "")
    ∧ (cfg.lookup f = some rule → truthyRegex rule = true →
        writeVal (csvCell fake cfg f (dictRow header row f)) = "")
    ∧ (cfg.lookup f = some rule → truthyRegex rule = false →
        actionOf rule = "replace" →
        writeVal (csvCell fake cfg f (dictRow header row f)) =
          replaceValueText fake (phOf rule))
    ∧ (cfg.lookup f = some rule → truthyRegex rule = false →
        actionOf rule ≠ "replace" →
        writeVal (csvCell fake cfg f (dictRow header row f)) = "") := by
  rw [hmiss]
  refine ⟨by simp [transformRow], ?_, ?_, ?_, ?_⟩
  · intro h; simp [csvCell, h, writeVal]
  · intro h ht; simp [csvCell, h, ht, writeVal]
  · intro h ht ha; simp [csvCell, h, ht, ha, writeVal]
  · intro h ht ha
    by_cases hr : actionOf rule = "remove" <;>
      simp [csvCell, h, ht, ha, hr, writeVal]

/-- Witness for C9 (amended): header `a,b`, row `1`: the missing `b` cell
is written as the empty string under a regex rule, and the row keeps the
header's column count. -/
theorem c9_witness :
    dictRow ["a", "b"] ["1"] "b" = none
    ∧ (transformRow (fun _ => "F")
        [("b", ⟨some "replace", some "#", some "x{0}"⟩)] ["a", "b"]
        ["1"]).length = (["a", "b"] : List String).length
    ∧ (([("b", (⟨some "replace", some "#", some "x{0}"⟩ : Rule))] : Cfg).lookup
        "b" = some (⟨some "replace", some "#", some "x{0}"⟩ : Rule))
    ∧ truthyRegex ⟨some "replace", some "#", some "x{0}"⟩ = true
    ∧ writeVal (csvCell (fun _ => "F")
        [("b", ⟨some "replace", some "#", some "x{0}"⟩)] "b"
        (dictRow ["a", "b"] ["1"] "b")) = "" := by
  have h := c9_missing_column_amended (fun _ => "F")
    [("b", ⟨some "replace", some "#", some "x{0}"⟩)] ["a", "b"] ["1"] "b"
    ⟨some "replace", some "#", some "x{0}"⟩ rfl
  exact ⟨rfl, h.1, rfl, rfl, h.2.2.1 rfl rfl⟩

/-- C10: The JSON walker never recurses into the value of a key that has a
rule entry: on the warn-and-keep outcomes — a regex rule on a non-string
value, an action outside `{replace, remove}`, or a regex the engine
rejects — the member keeps the value itself, whatever rules its interior
would match, and on `replace` the value is overwritten wholesale; only
keys without a rule entry have their values traversed. -/
theorem c10_ruled_keys_not_recursed (fake : FakeCat → String) (cfg : Cfg)
    (k : String) (rule : Rule) (v : Json) (rest : JObj)
    (h1 : cfg.lookup k = some rule) :
    (truthyRegex rule = true → (∀ s, v ≠ .str s) →
      goObj fake cfg (.cons k v rest) =
        (goObj fake cfg rest).map (JObj.cons k v))
    ∧ (truthyRegex rule = false → actionOf rule ≠ "replace" →
        actionOf rule ≠ "remove" →
        goObj fake cfg (.cons k v rest) =
          (goObj fake cfg rest).map (JObj.cons k v))
    ∧ (∀ s, truthyRegex rule = true → v = .str s →
        compileRegex (regexStr rule) = none →
        goObj fake cfg (.cons k v rest) =
          (goObj fake cfg rest).map (JObj.cons k v))
    ∧ (truthyRegex rule = false → actionOf rule = "replace" →
        goObj fake cfg (.cons k v rest) =
          (goObj fake cfg rest).map
            (JObj.cons k (replaceValueJson fake (phOf rule)))) := by
  refine ⟨?_, ?_, ?_, ?_⟩
  · intro ht hs
    cases v <;> simp [goObj, h1, ht]
    exact absurd rfl (hs _)
  · intro ht ha hr
    cases v <;> simp [goObj, h1, ht, ha, hr]
  · intro s ht hv hc
    subst hv
    simp [goObj, h1, ht, hc]
  · intro ht ha
    cases v <;> simp [goObj, h1, ht, ha]

/-- Witness for C10: the key `a` carries an unknown-action rule and its
object value contains the ruled key `email`; the value is kept exactly,
with the nested `email` untransformed. -/
theorem c10_witness :
    (([("a", (⟨some "mask", none, none⟩ : Rule)),
       ("email", (⟨some "replace", some "X", none⟩ : Rule))] : Cfg).lookup
        "a" = some (⟨some "mask", none, none⟩ : Rule))
    ∧ truthyRegex ⟨some "mask", none, none⟩ = false
    ∧ actionOf ⟨some "mask", none, none⟩ ≠ "replace"
    ∧ actionOf ⟨some "mask", none, none⟩ ≠ "remove"
    ∧ goObj (fun _ => "F")
        [("a", ⟨some "mask", none, none⟩),
         ("email", ⟨some "replace", some "X", none⟩)]
        (.cons "a" (.obj (.cons "email" (.str "x") .nil)) .nil) =
      .ok (.cons "a" (.obj (.cons "email" (.str "x") .nil)) .nil) := by
  have h := c10_ruled_keys_not_recursed (fun _ => "F")
    [("a", ⟨some "mask", none, none⟩),
     ("email", ⟨some "replace", some "X", none⟩)] "a"
    ⟨some "mask", none, none⟩ (.obj (.cons "email" (.str "x") .nil)) .nil rfl
  refine ⟨rfl, rfl, by decide, by decide, ?_⟩
  rw [h.2.1 rfl (by decide) (by decide)]
  rfl
